import Mathlib

/-
Verification of the runtime state container of the gestop repository
(src/config.py, dataclass State). The dataclass itself declares the fields
and initializes them in __post_init__; the operations that drive the state
(buffer pushes, mode cycling, modifier-edge detection, flag accessors) are
described in the specification only, so they are modelled from the spec and
marked as such. Field names follow the source.
-/

namespace Gestop

/-- Modelled from the spec: the interaction modes enum STATIC, DYNAMIC.
The mode machinery in src/config.py is present only as commented-out code
(lines 153-165), which uses the strings static and dynamic; the spec
declares an enum of two modes. -/
inductive Mode where
  | STATIC
  | DYNAMIC
deriving DecidableEq, Repr

/-- A frame of keypoints for dynamic gestures. The source keeps these in a
plain list and never inspects their contents, so the representation is
arbitrary; a list of integer coordinate pairs is used. -/
abbrev KeypointFrame := List (Int × Int)

/-- Edge result of modifier-key update. Modelled from the spec:
enum NONE, PRESSED, RELEASED. -/
inductive Edge where
  | NONE
  | PRESSED
  | RELEASED
deriving DecidableEq, Repr

/-- Error raised by flag accessors on an unknown flag name. Modelled from
the spec: InvalidFlagError is the only defined failure. -/
inductive FlagError where
  | invalidFlagError
deriving DecidableEq, Repr

/-- The runtime state, after the dataclass State of src/config.py
(lines 112-151). mouse_flags is a dict in the source, embedded here as an
association list; prev_pointer is the two-element list [0, 0] in the
source, embedded as a coordinate pair; modes holds the mode queue that the
source shows in commented-out form. -/
structure State where
  mouse_track : Bool
  start_mode : Mode
  mouse_flags : List (String × Bool)
  pointer_buffer : List (Int × Int)
  prev_pointer : Int × Int
  static_config_buffer : List String
  keypoint_buffer : List KeypointFrame
  ctrl_flag : Bool
  prev_flag : Bool
  modes : List Mode
deriving DecidableEq, Repr

/-- Construction of a State, after the dataclass defaults (lines 125-142)
followed by __post_init__ (lines 144-151): mouse_flags gets exactly the
keys mousedown (rendered button_down in the spec) and scroll, both false;
pointer_buffer gets five (0,0) pairs; prev_pointer gets (0,0);
static_config_buffer gets five empty strings; keypoint_buffer stays empty;
ctrl_flag and prev_flag keep their false defaults. The modes queue follows
the commented-out lines 161-165, which match the spec: the queue starts at
the start mode followed by the other mode. -/
def initState (mouse_track : Bool) (start_mode : Mode) : State :=
  { mouse_track := mouse_track
    start_mode := start_mode
    mouse_flags := [("mousedown", false), ("scroll", false)]
    pointer_buffer := [(0, 0), (0, 0), (0, 0), (0, 0), (0, 0)]
    prev_pointer := (0, 0)
    static_config_buffer := ["", "", "", "", ""]
    keypoint_buffer := []
    ctrl_flag := false
    prev_flag := false
    modes :=
      if start_mode = Mode.STATIC then [Mode.STATIC, Mode.DYNAMIC]
      else [Mode.DYNAMIC, Mode.STATIC] }

/-- Modelled from the spec: pushPointer appends the sample, evicting the
oldest entry if the buffer is at capacity 5, and updates prev_pointer to
the most recent prior sample (the sample at the write end of the buffer
just before this push). The buffer is kept oldest-first, so the most
recent sample is the last element. -/
def pushPointer (p : Int × Int) (s : State) : State :=
  { s with
    prev_pointer := s.pointer_buffer.getLastD (0, 0)
    pointer_buffer :=
      if s.pointer_buffer.length < 5 then s.pointer_buffer ++ [p]
      else s.pointer_buffer.tail ++ [p] }

/-- Modelled from the spec: pushStaticLabel uses the same ring-eviction
policy with capacity 5 on static_config_buffer. -/
def pushStaticLabel (label : String) (s : State) : State :=
  { s with
    static_config_buffer :=
      if s.static_config_buffer.length < 5 then s.static_config_buffer ++ [label]
      else s.static_config_buffer.tail ++ [label] }

/-- Modelled from the spec: unbounded append to keypoint_buffer, no
automatic trimming. -/
def appendKeypointFrame (f : KeypointFrame) (s : State) : State :=
  { s with keypoint_buffer := s.keypoint_buffer ++ [f] }

/-- Modelled from the spec: clearKeypointBuffer resets the buffer to
empty. -/
def clearKeypointBuffer (s : State) : State :=
  { s with keypoint_buffer := [] }

/-- Modelled from the spec: the current mode is the head of the mode
queue (first index of the modes list, per the source comment on
line 156). -/
def currentMode (s : State) : Mode :=
  s.modes.headD Mode.STATIC

/-- Modelled from the spec: cycleMode rotates the queue left by one, the
old head moving to the tail (the source comment on line 156 says the list
is cycled on a mode switch). -/
def cycleMode (s : State) : State :=
  { s with modes := s.modes.tail ++ s.modes.take 1 }

/-- Modelled from the spec: updateModifier computes the edge by comparing
the input to the stored value of ctrl_flag, then assigns
prev_flag := ctrl_flag and ctrl_flag := isDown, in that order. -/
def updateModifier (isDown : Bool) (s : State) : Edge × State :=
  let edge :=
    if isDown && !s.ctrl_flag then Edge.PRESSED
    else if !isDown && s.ctrl_flag then Edge.RELEASED
    else Edge.NONE
  (edge, { s with prev_flag := s.ctrl_flag, ctrl_flag := isDown })

/-- The key list of the flag dictionary, in insertion order. -/
def flagKeys (s : State) : List String :=
  s.mouse_flags.map Prod.fst

/-- Modelled from the spec: setFlag writes a value under an existing flag
name and fails with InvalidFlagError when the name is not a key of the
flag dictionary. It never adds or removes a key. -/
def setFlag (name : String) (value : Bool) (s : State) : Except FlagError State :=
  if s.mouse_flags.any (fun kv => kv.1 == name) then
    Except.ok
      { s with
        mouse_flags :=
          s.mouse_flags.map (fun kv => if kv.1 == name then (kv.1, value) else kv) }
  else Except.error FlagError.invalidFlagError

/-- Modelled from the spec: getFlag reads a flag value, failing with
InvalidFlagError when the name is not a key of the flag dictionary. -/
def getFlag (name : String) (s : State) : Except FlagError Bool :=
  match s.mouse_flags.lookup name with
  | some v => Except.ok v
  | none => Except.error FlagError.invalidFlagError

/-- Push a whole sequence of pointer samples, oldest first. -/
def pushPointerSeq (s : State) (ps : List (Int × Int)) : State :=
  ps.foldl (fun t p => pushPointer p t) s

/-- Append a whole sequence of keypoint frames. -/
def appendKeypointSeq (s : State) (fs : List KeypointFrame) : State :=
  fs.foldl (fun t f => appendKeypointFrame f t) s

/-- Run updateModifier over a sequence of inputs, collecting the edges. -/
def updateModifierSeq (s : State) : List Bool → List Edge
  | [] => []
  | b :: bs =>
    let r := updateModifier b s
    r.1 :: updateModifierSeq r.2 bs

/-- The states reachable from construction by the operations of the
container. setFlag participates through its successful outcomes; its
failing outcomes leave no state. -/
inductive Reachable : State → Prop where
  | init (mt : Bool) (sm : Mode) : Reachable (initState mt sm)
  | push_pointer (p : Int × Int) {s : State} :
      Reachable s → Reachable (pushPointer p s)
  | push_label (label : String) {s : State} :
      Reachable s → Reachable (pushStaticLabel label s)
  | append_frame (f : KeypointFrame) {s : State} :
      Reachable s → Reachable (appendKeypointFrame f s)
  | clear_frames {s : State} :
      Reachable s → Reachable (clearKeypointBuffer s)
  | cycle_mode {s : State} :
      Reachable s → Reachable (cycleMode s)
  | update_modifier (isDown : Bool) {s : State} :
      Reachable s → Reachable (updateModifier isDown s).2
  | set_flag (name : String) (value : Bool) {s t : State} :
      Reachable s → setFlag name value s = Except.ok t → Reachable t

/-- A successful setFlag only rewrites values inside mouse_flags; the key
positions and every other field are untouched. -/
theorem setFlag_ok_fields {name : String} {value : Bool} {s t : State}
    (heq : setFlag name value s = Except.ok t) :
    t.mouse_flags
        = s.mouse_flags.map (fun kv => if kv.1 == name then (kv.1, value) else kv) ∧
      t.modes = s.modes := by
  rw [setFlag] at heq
  split at heq
  · injection heq with h
    subst h
    exact ⟨rfl, rfl⟩
  · simp at heq

/-- Every reachable state keeps mouse_flags in the exact shape produced by
construction: the keys mousedown and scroll in this order, with some
boolean values. -/
theorem flags_shape {s : State} (h : Reachable s) :
    ∃ v w : Bool, s.mouse_flags = [("mousedown", v), ("scroll", w)] := by
  induction h with
  | init mt sm => exact ⟨false, false, rfl⟩
  | push_pointer p _ ih => exact ih
  | push_label label _ ih => exact ih
  | append_frame f _ ih => exact ih
  | clear_frames _ ih => exact ih
  | cycle_mode _ ih => exact ih
  | update_modifier isDown _ ih => exact ih
  | set_flag name value _ heq ih =>
    obtain ⟨v, w, hf⟩ := ih
    obtain ⟨hm, -⟩ := setFlag_ok_fields heq
    refine ⟨if ("mousedown" : String) = name then value else v,
            if ("scroll" : String) = name then value else w, ?_⟩
    rw [hm, hf]
    by_cases h1 : ("mousedown" : String) = name <;>
      by_cases h2 : ("scroll" : String) = name <;>
        simp [h1, h2]

/-- The key list of every reachable state is the fixed two-key list. -/
theorem reachable_flagKeys {s : State} (h : Reachable s) :
    flagKeys s = ["mousedown", "scroll"] := by
  obtain ⟨v, w, hf⟩ := flags_shape h
  simp [flagKeys, hf]

/-- The mode queue of every reachable state is one of the two rotations of
the two known modes. -/
theorem reachable_modes {s : State} (h : Reachable s) :
    s.modes = [Mode.STATIC, Mode.DYNAMIC] ∨ s.modes = [Mode.DYNAMIC, Mode.STATIC] := by
  induction h with
  | init mt sm => cases sm <;> simp [initState]
  | push_pointer p _ ih => exact ih
  | push_label label _ ih => exact ih
  | append_frame f _ ih => exact ih
  | clear_frames _ ih => exact ih
  | cycle_mode _ ih =>
    rcases ih with h1 | h1
    · right; simp [cycleMode, h1]
    · left; simp [cycleMode, h1]
  | update_modifier isDown _ ih => exact ih
  | set_flag name value _ heq ih =>
    obtain ⟨-, hm⟩ := setFlag_ok_fields heq
    rw [hm]; exact ih

/-- On a full buffer, pushPointer drops the oldest sample and appends the
new one at the recent end. -/
theorem pushPointer_buffer_of_full {s : State} (p : Int × Int)
    (h : s.pointer_buffer.length = 5) :
    (pushPointer p s).pointer_buffer = s.pointer_buffer.tail ++ [p] := by
  simp [pushPointer, h]

/-- Folding a push sequence over a full buffer keeps exactly the suffix of
the concatenated history of length 5. -/
theorem pushPointerSeq_buffer (ps : List (Int × Int)) :
    ∀ s : State, s.pointer_buffer.length = 5 →
      (pushPointerSeq s ps).pointer_buffer = (s.pointer_buffer ++ ps).drop ps.length := by
  induction ps with
  | nil => intro s _; simp [pushPointerSeq]
  | cons p ps ih =>
    intro s h
    have hb := pushPointer_buffer_of_full p h
    have hlen : (pushPointer p s).pointer_buffer.length = 5 := by
      rw [hb]
      rcases hbuf : s.pointer_buffer with - | ⟨a, t⟩
      · rw [hbuf] at h; simp at h
      · rw [hbuf] at h; simp at h ⊢; omega
    have hstep : pushPointerSeq s (p :: ps) = pushPointerSeq (pushPointer p s) ps := by
      simp [pushPointerSeq]
    rw [hstep, ih (pushPointer p s) hlen, hb]
    rcases hbuf : s.pointer_buffer with - | ⟨a, t⟩
    · rw [hbuf] at h; simp at h
    · simp [List.append_assoc]

/-- The pointer buffer keeps length 5 under any push sequence. -/
theorem pushPointerSeq_length (ps : List (Int × Int)) (s : State)
    (h : s.pointer_buffer.length = 5) :
    (pushPointerSeq s ps).pointer_buffer.length = 5 := by
  rw [pushPointerSeq_buffer ps s h]
  simp [h]

/-- Dropping fewer elements than the length preserves the last element. -/
theorem getLast?_drop_of_lt {α : Type} : ∀ (n : Nat) (l : List α), n < l.length →
    (l.drop n).getLast? = l.getLast?
  | 0, _, _ => rfl
  | n + 1, [], h => by simp at h
  | n + 1, a :: t, h => by
    have ht : n < t.length := by simpa using h
    have hne : t ≠ [] := by
      intro hn; rw [hn] at ht; simp at ht
    obtain ⟨b, u, rfl⟩ := List.exists_cons_of_ne_nil hne
    rw [List.drop_succ_cons, List.getLast?_cons_cons]
    exact getLast?_drop_of_lt n (b :: u) ht

/-- C1: for the lifetime of a State object, the key set of mouse_flags
(controlFlags in the spec; the source key mousedown is rendered
button_down there) is exactly the two keys mousedown and scroll:
construction creates exactly these two keys and no operation inserts or
removes a key afterwards, though values may change. -/
theorem controlFlags_key_set_fixed {s : State} (h : Reachable s) :
    flagKeys s = ["mousedown", "scroll"] :=
  reachable_flagKeys h

/-- Witness for C1 at a freshly constructed state. -/
theorem controlFlags_key_set_fixed_witness :
    flagKeys (initState true Mode.STATIC) = ["mousedown", "scroll"] :=
  controlFlags_key_set_fixed (Reachable.init true Mode.STATIC)

/-- C2: for every pair of constructor arguments, the fresh state has
pointer_buffer equal to five (0,0) pairs, static_config_buffer equal to
five empty strings, and prev_pointer equal to (0,0). -/
theorem fresh_state_buffers (mt : Bool) (sm : Mode) :
    (initState mt sm).pointer_buffer = [(0, 0), (0, 0), (0, 0), (0, 0), (0, 0)] ∧
    (initState mt sm).static_config_buffer = ["", "", "", "", ""] ∧
    (initState mt sm).prev_pointer = (0, 0) :=
  ⟨rfl, rfl, rfl⟩

/-- C3: after every push sequence from a fresh state the pointer buffer
has length exactly 5, and once at least 5 samples have been pushed it
holds exactly the 5 most recently pushed samples in push order. -/
theorem pointer_buffer_ring (mt : Bool) (sm : Mode) (ps : List (Int × Int)) :
    (pushPointerSeq (initState mt sm) ps).pointer_buffer.length = 5 ∧
    (5 ≤ ps.length →
      (pushPointerSeq (initState mt sm) ps).pointer_buffer = ps.drop (ps.length - 5)) := by
  have hinit : (initState mt sm).pointer_buffer.length = 5 := rfl
  refine ⟨pushPointerSeq_length ps _ hinit, fun h5 => ?_⟩
  rw [pushPointerSeq_buffer ps _ hinit]
  calc ((initState mt sm).pointer_buffer ++ ps).drop ps.length
      = (((initState mt sm).pointer_buffer ++ ps).drop 5).drop (ps.length - 5) := by
        rw [List.drop_drop]
        congr 1
        omega
    _ = ps.drop (ps.length - 5) := rfl

/-- Witness for C3: pushing six samples leaves the last five. -/
theorem pointer_buffer_ring_witness :
    (pushPointerSeq (initState true Mode.STATIC)
        [(1, 1), (2, 2), (3, 3), (4, 4), (5, 5), (6, 6)]).pointer_buffer
      = [(2, 2), (3, 3), (4, 4), (5, 5), (6, 6)] :=
  ((pointer_buffer_ring true Mode.STATIC
      [(1, 1), (2, 2), (3, 3), (4, 4), (5, 5), (6, 6)]).2 (by decide)).trans (by decide)

/-- C4: on every reachable state, two mode cycles restore the current
mode, and a single cycle moves the old head to the tail and makes the
other of the two modes current. -/
theorem cycleMode_involution {s : State} (h : Reachable s) :
    currentMode (cycleMode (cycleMode s)) = currentMode s ∧
    (cycleMode s).modes = s.modes.tail ++ [currentMode s] ∧
    currentMode (cycleMode s) ≠ currentMode s := by
  rcases reachable_modes h with h1 | h1 <;>
    refine ⟨?_, ?_, ?_⟩ <;> simp [currentMode, cycleMode, h1]

/-- Witness for C4 at a freshly constructed state. -/
theorem cycleMode_involution_witness :
    currentMode (cycleMode (cycleMode (initState true Mode.STATIC)))
        = currentMode (initState true Mode.STATIC) ∧
    (cycleMode (initState true Mode.STATIC)).modes
        = (initState true Mode.STATIC).modes.tail
          ++ [currentMode (initState true Mode.STATIC)] ∧
    currentMode (cycleMode (initState true Mode.STATIC))
        ≠ currentMode (initState true Mode.STATIC) :=
  cycleMode_involution (Reachable.init true Mode.STATIC)

/-- C5: every reachable state holds exactly the two known modes in some
rotation of the queue, and immediately after construction the head of the
queue is the start mode given to the constructor. -/
theorem activeModeQueue_rotation {s : State} (h : Reachable s) (mt : Bool) (sm : Mode) :
    (s.modes = [Mode.STATIC, Mode.DYNAMIC] ∨ s.modes = [Mode.DYNAMIC, Mode.STATIC]) ∧
    currentMode (initState mt sm) = sm := by
  refine ⟨reachable_modes h, ?_⟩
  cases sm <;> rfl

/-- Witness for C5 at a freshly constructed state. -/
theorem activeModeQueue_rotation_witness :
    ((initState false Mode.DYNAMIC).modes = [Mode.STATIC, Mode.DYNAMIC] ∨
      (initState false Mode.DYNAMIC).modes = [Mode.DYNAMIC, Mode.STATIC]) ∧
    currentMode (initState false Mode.DYNAMIC) = Mode.DYNAMIC :=
  activeModeQueue_rotation (Reachable.init false Mode.DYNAMIC) false Mode.DYNAMIC

/-- C6: updateModifier returns PRESSED exactly on a rising input, RELEASED
on a falling input and NONE otherwise, then shifts ctrl_flag into
prev_flag and stores the input into ctrl_flag, in that order; from a
fresh state the input sequence false, true, true, false yields the edges
NONE, PRESSED, NONE, RELEASED. -/
theorem updateModifier_edges :
    (∀ (s : State) (isDown : Bool),
      (isDown = true → s.ctrl_flag = false → (updateModifier isDown s).1 = Edge.PRESSED) ∧
      (isDown = false → s.ctrl_flag = true → (updateModifier isDown s).1 = Edge.RELEASED) ∧
      (isDown = s.ctrl_flag → (updateModifier isDown s).1 = Edge.NONE) ∧
      (updateModifier isDown s).2.prev_flag = s.ctrl_flag ∧
      (updateModifier isDown s).2.ctrl_flag = isDown) ∧
    (∀ (mt : Bool) (sm : Mode),
      updateModifierSeq (initState mt sm) [false, true, true, false]
        = [Edge.NONE, Edge.PRESSED, Edge.NONE, Edge.RELEASED]) := by
  constructor
  · intro s isDown
    cases isDown <;> cases hc : s.ctrl_flag <;>
      simp [updateModifier, hc]
  · intro mt sm
    rfl

/-- Witness for C6: a rising edge on a fresh state, and the reference
input sequence. -/
theorem updateModifier_edges_witness :
    (updateModifier true (initState true Mode.STATIC)).1 = Edge.PRESSED ∧
    updateModifierSeq (initState true Mode.STATIC) [false, true, true, false]
      = [Edge.NONE, Edge.PRESSED, Edge.NONE, Edge.RELEASED] :=
  ⟨(updateModifier_edges.1 (initState true Mode.STATIC) true).1 rfl rfl,
   updateModifier_edges.2 true Mode.STATIC⟩

/-- C7: on every reachable state, setFlag and getFlag fail exactly when
the name lies outside the fixed key set (mousedown, rendered button_down
in the spec, and scroll); a successful write is observable through
getFlag; invalidFlagError is the only failure value of the error type;
the buffer and mode operations are total functions into State by their
types and cannot fail. -/
theorem flag_errors_spec {s : State} (h : Reachable s) :
    (∀ (name : String) (value : Bool),
      (∃ e, setFlag name value s = Except.error e) ↔ name ∉ ["mousedown", "scroll"]) ∧
    (∀ name : String,
      (∃ e, getFlag name s = Except.error e) ↔ name ∉ ["mousedown", "scroll"]) ∧
    (∀ t, setFlag "scroll" true s = Except.ok t → getFlag "scroll" t = Except.ok true) ∧
    (∀ e : FlagError, e = FlagError.invalidFlagError) := by
  obtain ⟨v, w, hf⟩ := flags_shape h
  refine ⟨?_, ?_, ?_, fun e => by cases e; rfl⟩
  · intro name value
    rw [setFlag, hf]
    by_cases h1 : name = "mousedown"
    · subst h1; simp
    · by_cases h2 : name = "scroll"
      · subst h2; simp
      · constructor
        · intro _
          simp [h1, h2]
        · intro _
          have hany : ([(("mousedown" : String), v), ("scroll", w)].any
              (fun kv => kv.1 == name)) = false := by
            simp [beq_eq_false_iff_ne, Ne.symm h1, Ne.symm h2]
          exact ⟨FlagError.invalidFlagError, by simp [hany]⟩
  · intro name
    rw [getFlag.eq_def, hf]
    by_cases h1 : name = "mousedown"
    · subst h1; simp [List.lookup]
    · by_cases h2 : name = "scroll"
      · subst h2; simp [List.lookup]
      · have hb1 : (name == "mousedown") = false := by
          simp [beq_eq_false_iff_ne, h1]
        have hb2 : (name == "scroll") = false := by
          simp [beq_eq_false_iff_ne, h2]
        constructor
        · intro _
          simp [h1, h2]
        · intro _
          exact ⟨FlagError.invalidFlagError, by simp [List.lookup, hb1, hb2]⟩
  · intro t ht
    obtain ⟨hm, -⟩ := setFlag_ok_fields ht
    rw [getFlag.eq_def, hm, hf]
    simp [List.lookup]

/-- Witness for C7: an unknown flag name is rejected on a fresh state. -/
theorem flag_errors_spec_witness :
    ∃ e, setFlag "invalid" true (initState true Mode.STATIC) = Except.error e :=
  ((flag_errors_spec (Reachable.init true Mode.STATIC)).1 "invalid" true).mpr (by decide)

/-- C8: pushPointer sets prev_pointer to the most recent prior sample: in
general to the newest element of the buffer just before the push, and
after pushing a nonempty sequence followed by one more sample from a
fresh state, prev_pointer is the last sample of that sequence; pushPointer
is a total function and accepts any coordinate pair. -/
theorem prev_pointer_tracks (mt : Bool) (sm : Mode) (ps : List (Int × Int))
    (b : Int × Int) (hps : ps ≠ []) :
    (∀ (s : State) (p : Int × Int),
      (pushPointer p s).prev_pointer = s.pointer_buffer.getLastD (0, 0)) ∧
    (pushPointerSeq (initState mt sm) (ps ++ [b])).prev_pointer = ps.getLastD (0, 0) := by
  refine ⟨fun s p => rfl, ?_⟩
  have hstep : pushPointerSeq (initState mt sm) (ps ++ [b])
      = pushPointer b (pushPointerSeq (initState mt sm) ps) := by
    simp [pushPointerSeq, List.foldl_append]
  rw [hstep]
  show (pushPointerSeq (initState mt sm) ps).pointer_buffer.getLastD (0, 0)
      = ps.getLastD (0, 0)
  rw [pushPointerSeq_buffer ps (initState mt sm) rfl]
  have hlt : ps.length < ((initState mt sm).pointer_buffer ++ ps).length := by
    simp [initState]
    omega
  rw [List.getLastD_eq_getLast?, List.getLastD_eq_getLast?,
      getLast?_drop_of_lt _ _ hlt, List.getLast?_append_of_ne_nil _ hps]

/-- Witness for C8: after pushing (7,8) and then (9,10), prev_pointer
holds (7,8). -/
theorem prev_pointer_tracks_witness :
    (pushPointerSeq (initState true Mode.STATIC) ([(7, 8)] ++ [(9, 10)])).prev_pointer
      = (7, 8) :=
  ((prev_pointer_tracks true Mode.STATIC [(7, 8)] (9, 10) (by decide)).2).trans (by decide)

/-- C9: clearing after any number of appended frames leaves the keypoint
buffer empty, and each append grows the buffer by exactly one frame at
the end, with no automatic trimming. -/
theorem keypoint_clear_empties (mt : Bool) (sm : Mode) (fs : List KeypointFrame) :
    (clearKeypointBuffer (appendKeypointSeq (initState mt sm) fs)).keypoint_buffer = [] ∧
    (∀ (s : State) (f : KeypointFrame),
      (appendKeypointFrame f s).keypoint_buffer = s.keypoint_buffer ++ [f]) :=
  ⟨rfl, fun _ _ => rfl⟩

/-- C10: a fresh state has ctrl_flag and prev_flag false and an empty
keypoint buffer, so the first updateModifier with input true yields a
PRESSED edge. -/
theorem fresh_modifier_flags (mt : Bool) (sm : Mode) :
    (initState mt sm).ctrl_flag = false ∧
    (initState mt sm).prev_flag = false ∧
    (initState mt sm).keypoint_buffer = [] ∧
    (updateModifier true (initState mt sm)).1 = Edge.PRESSED :=
  ⟨rfl, rfl, rfl, rfl⟩

end Gestop
